import Mathlib

/-
Shallow embedding of the docs.json sandbox validator
(src/snippets/settings-sandbox.jsx, with the legacy tab check of the
older variants) and proofs about it.

JavaScript semantics captured here:
  * runtime values are JSON values plus `undefined`;
  * property access on `null`/`undefined` throws a TypeError, on every
    other value it yields the field (or `undefined`);
  * truthiness: `undefined`, `null`, `false`, `0` and `""` are falsy;
  * calling a string method (`match`, `startsWith`, `forEach`) on a
    non-string / non-array receiver throws a TypeError.
Thrown exceptions are modelled with `Except String`.
-/

set_option maxHeartbeats 1000000

inductive Json where
  | undefined
  | null
  | bool (b : Bool)
  | num (n : Int)
  | str (s : String)
  | arr (elems : List Json)
  | obj (fields : List (String × Json))

instance {e a : Type} [DecidableEq e] [DecidableEq a] : DecidableEq (Except e a) := fun x y =>
  match x, y with
  | .ok u, .ok v => if h : u = v then .isTrue (by rw [h]) else .isFalse (by simp [h])
  | .error u, .error v => if h : u = v then .isTrue (by rw [h]) else .isFalse (by simp [h])
  | .ok _, .error _ => .isFalse (by simp)
  | .error _, .ok _ => .isFalse (by simp)

/-- First-match association-list lookup, the model of JS property lookup
on a parsed-JSON object. -/
def lookupField : List (String × Json) → String → Option Json
  | [], _ => none
  | (k, v) :: rest, key => if k = key then some v else lookupField rest key

/-- Total property access: `undefined` for an absent key and for every
receiver that has no such own property (numbers, strings, arrays, ...). -/
def Json.getD (j : Json) (key : String) : Json :=
  match j with
  | .obj fields => (lookupField fields key).getD .undefined
  | _ => .undefined

/-- Property access as in JS: reading a property of `null` or `undefined`
throws a TypeError, every other receiver yields `Json.getD`. -/
def Json.get (j : Json) (key : String) : Except String Json :=
  match j with
  | .undefined => .error "TypeError: cannot read properties of undefined"
  | .null => .error "TypeError: cannot read properties of null"
  | _ => .ok (j.getD key)

/-- JS truthiness of the modelled values. -/
def Json.truthy : Json → Bool
  | .undefined => false
  | .null => false
  | .bool b => b
  | .num n => n != 0
  | .str s => s != ""
  | .arr _ => true
  | .obj _ => true

/-- JS `a || b`: the first operand if truthy, otherwise the second. -/
def jsOr (a b : Json) : Json := if a.truthy then a else b

/-- JS string coercion as used by template literals. -/
def Json.jsToString : Json → String
  | .undefined => "undefined"
  | .null => "null"
  | .bool true => "true"
  | .bool false => "false"
  | .num n => toString n
  | .str s => s
  | .arr elems => String.intercalate "," (elems.attach.map (fun e => Json.jsToString e.1))
  | .obj _ => "[object Object]"
termination_by j => sizeOf j
decreasing_by
  simp only [Json.arr.sizeOf_spec]
  have := List.sizeOf_lt_of_mem e.2
  omega

/-- JS `Array.isArray`. -/
def Json.isArr : Json → Bool
  | .arr _ => true
  | _ => false

/-- JS `typeof x === \x27object\x27` (true for objects, arrays and null). -/
def Json.isObjectType : Json → Bool
  | .obj _ => true
  | .arr _ => true
  | .null => true
  | _ => false

/-- Optional chaining `j?.key`: `undefined` when the receiver is
`null`/`undefined`, plain property access otherwise. -/
def optChainGet (j : Json) (key : String) : Json :=
  match j with
  | .null => .undefined
  | .undefined => .undefined
  | _ => j.getD key

/-- Calling `.forEach` requires an array; anything else throws. -/
def jsArrayElems (j : Json) : Except String (List Json) :=
  match j with
  | .arr elems => .ok elems
  | _ => .error "TypeError: forEach is not a function"

/-- Calling `.match(re)` requires a string receiver; the boolean is
whether the regular expression (passed as a predicate) matches. -/
def jsMatch (p : String → Bool) (j : Json) : Except String Bool :=
  match j with
  | .str s => .ok (p s)
  | _ => .error "TypeError: match is not a function"

/-- JS `s.startsWith(p)`, written over the character list so that the
kernel can evaluate it. -/
def strStartsWith (s p : String) : Bool := p.data.isPrefixOf s.data

/-- Calling `.startsWith(\x27http\x27)` requires a string receiver. -/
def jsStartsWithHttp (j : Json) : Except String Bool :=
  match j with
  | .str s => .ok (strStartsWith s "http")
  | _ => .error "TypeError: startsWith is not a function"

/-- Splitter for JS `s.split(\x27/\x27)`, written over the character list so
that the kernel can evaluate it. -/
def splitSegsAux : List Char → List Char → List String
  | [], acc => [String.mk acc.reverse]
  | '/' :: rest, acc => String.mk acc.reverse :: splitSegsAux rest []
  | c :: rest, acc => splitSegsAux rest (c :: acc)

/-- JS `s.split(\x27/\x27)`. -/
def splitSlash (s : String) : List String := splitSegsAux s.data []

/-- Whether `s.split(\x27/\x27).includes(\x27mcp\x27)`. -/
def hasMcpSegment (s : String) : Bool := (splitSlash s).contains "mcp"

/-- One character of the regex class `[0-9A-Fa-f]`. -/
def isHexDigitChar (c : Char) : Bool :=
  ('0' ≤ c && c ≤ '9') || ('a' ≤ c && c ≤ 'f') || ('A' ≤ c && c ≤ 'F')

/-- The regex `^#[0-9A-Fa-f]\x7b6\x7d$` of the color checks. -/
def isHexColor (s : String) : Bool :=
  match s.data with
  | '#' :: rest => rest.length == 6 && rest.all isHexDigitChar
  | _ => false

/-- The regex `^https?:\/\/` of the logo-href check. -/
def isHttpUrl (s : String) : Bool :=
  "http://".data.isPrefixOf s.data || "https://".data.isPrefixOf s.data

/-- The regex `\.(ico|png|svg)$` with the `i` flag, of the favicon check. -/
def faviconExtOk (s : String) : Bool :=
  let t := s.data.map Char.toLower
  ".ico".data.isSuffixOf t || ".png".data.isSuffixOf t || ".svg".data.isSuffixOf t

/-- One character of the regex class `[A-Z0-9]`. -/
def upperAlnum (c : Char) : Bool := ('A' ≤ c && c ≤ 'Z') || ('0' ≤ c && c ≤ '9')

/-- The regex `^G-[A-Z0-9]+$` of the GA4 check. -/
def ga4IdOk (s : String) : Bool :=
  match s.data with
  | 'G' :: '-' :: rest => !rest.isEmpty && rest.all upperAlnum
  | _ => false

/-- The regex `^GTM-[A-Z0-9]+$` of the GTM check. -/
def gtmIdOk (s : String) : Bool :=
  match s.data with
  | 'G' :: 'T' :: 'M' :: '-' :: rest => !rest.isEmpty && rest.all upperAlnum
  | _ => false

/-- JS `String.prototype.trim` over the character list. -/
def jsTrim (s : String) : String :=
  String.mk (((s.data.dropWhile Char.isWhitespace).reverse.dropWhile Char.isWhitespace).reverse)

/-- JS `Array.prototype.join` with a separator. -/
def joinSep (sep : String) : List String → String
  | [] => ""
  | [x] => x
  | x :: rest => x ++ sep ++ joinSep sep rest

def validThemes : List String := ["mint", "maple", "palm", "willow", "linden", "almond", "aspen"]

def validLanguages : List String :=
  ["ar", "cn", "zh-Hant", "en", "fr", "de", "id", "it", "jp", "ko", "pt-BR", "ru", "es", "tr"]

def isValidTheme (t : Json) : Bool :=
  match t with
  | .str s => validThemes.contains s
  | _ => false

def isValidLanguage (l : Json) : Bool :=
  match l with
  | .str s => validLanguages.contains s
  | _ => false

def themeRequiredMsg : String :=
  "\x27theme\x27 is required. Must be one of: mint, maple, palm, willow, linden, almond, aspen"

def invalidThemeMsg (t : Json) : String :=
  "Invalid theme \x27" ++ t.jsToString ++ "\x27. Must be one of: " ++ joinSep ", " validThemes

def nameRequiredMsg : String :=
  "\x27name\x27 is required. This is the name of your project, organization, or product"

def colorsPrimaryRequiredMsg : String :=
  "\x27colors.primary\x27 is required. Must be a hex color code starting with #"

def colorsPrimaryInvalidMsg : String :=
  "\x27colors.primary\x27 must be a valid hex color code (e.g., #ff0000)"

def colorsModeInvalidMsg (mode : String) : String :=
  "\x27colors." ++ mode ++ "\x27 must be a valid hex color code (e.g., #ff0000)"

def navigationRequiredMsg : String :=
  "\x27navigation\x27 is required. Define your documentation structure"

def groupMissingNameMsg (i : Nat) : String :=
  "Navigation group at index " ++ toString i ++ " is missing \x27group\x27 property"

def groupMissingPagesMsg (g : Json) : String :=
  "Navigation group \x27" ++ g.jsToString ++ "\x27 is missing \x27pages\x27 array"

def tabMissingTabMsg (i : Nat) : String :=
  "Navigation tab at index " ++ toString i ++ " is missing \x27tab\x27 property"

def menuItemMissingMsg (i : Nat) (tabName : Json) : String :=
  "Menu item at index " ++ toString i ++ " in tab \x27" ++ tabName.jsToString ++
    "\x27 is missing \x27item\x27 property"

def anchorMissingMsg (i : Nat) : String :=
  "Navigation anchor at index " ++ toString i ++ " is missing \x27anchor\x27 property"

def dropdownMissingMsg (i : Nat) : String :=
  "Navigation dropdown at index " ++ toString i ++ " is missing \x27dropdown\x27 property"

def versionMissingMsg (i : Nat) : String :=
  "Navigation version at index " ++ toString i ++ " is missing \x27version\x27 property"

def languageMissingMsg (i : Nat) : String :=
  "Navigation language at index " ++ toString i ++ " is missing \x27language\x27 property"

def languageWarnMsg (l : Json) : String :=
  "Language code \x27" ++ l.jsToString ++ "\x27 may not be supported. Supported codes: " ++
    joinSep ", " validLanguages

def globalAnchorMissingMsg (i : Nat) : String :=
  "Global anchor at index " ++ toString i ++ " is missing \x27anchor\x27 property"

def globalAnchorHrefMissingMsg (a : Json) : String :=
  "Global anchor \x27" ++ a.jsToString ++ "\x27 is missing \x27href\x27 property"

def globalAnchorHrefExternalMsg (a : Json) : String :=
  "Global anchor \x27" ++ a.jsToString ++ "\x27 href must be an external URL starting with http/https"

def logoHrefWarnMsg : String :=
  "Logo \x27href\x27 should be a complete URL starting with http:// or https://"

def faviconWarnMsg : String :=
  "Favicon should typically be an .ico, .png, or .svg file"

def ga4WarnMsg : String :=
  "Google Analytics 4 measurement ID should follow format \x27G-XXXXXXXXX\x27"

def gtmWarnMsg : String :=
  "Google Tag Manager container ID should follow format \x27GTM-XXXXXXX\x27"

def schemaNudgeMsg : String :=
  "Consider adding \"$schema\": \"https://mintlify.com/docs.json\" for better IDE support."

def descriptionNudgeMsg : String :=
  "Consider adding a \"description\" for better SEO and AI indexing."

def faviconNudgeMsg : String :=
  "Consider adding a \"favicon\" for better branding."

def logoNudgeMsg : String :=
  "Consider adding a \"logo\" configuration for better branding."

def reservedPathTail : String :=
  "\x27 uses reserved path. /mcp paths are reserved and may cause 404 errors"

def pageReservedMsg (ctx p : String) : String := ctx ++ " page \x27" ++ p ++ reservedPathTail

def hrefReservedMsg (ctx p : String) : String := ctx ++ " href \x27" ++ p ++ reservedPathTail

def jsonParseErrorMsg : String := "JSON Parse Error: Invalid JSON format"

def tabMissingNameMsg (i : Nat) : String :=
  "Navigation tab at index " ++ toString i ++ " is missing \x27name\x27 property"

def tabMissingUrlMsg (t : Json) : String :=
  "Navigation tab \x27" ++ t.jsToString ++ "\x27 is missing \x27url\x27 property"

theorem sizeOf_lookupField_lt {fields : List (String × Json)} {key : String} {v : Json}
    (h : lookupField fields key = some v) : sizeOf v < sizeOf fields := by
  induction fields with
  | nil => simp [lookupField] at h
  | cons p rest ih =>
    obtain ⟨k, w⟩ := p
    simp only [lookupField] at h
    split at h
    · cases h
      simp only [List.cons.sizeOf_spec, Prod.mk.sizeOf_spec]
      omega
    · have := ih h
      simp only [List.cons.sizeOf_spec, Prod.mk.sizeOf_spec]
      omega

theorem sizeOf_getD_lt (fields : List (String × Json)) (key : String) :
    sizeOf (Json.getD (Json.obj fields) key) < sizeOf (Json.obj fields) := by
  simp only [Json.getD]
  cases h : lookupField fields key with
  | none =>
    have h1 : 1 ≤ sizeOf fields := by cases fields <;> simp_arith
    simp only [Option.getD, Json.obj.sizeOf_spec, Json.undefined.sizeOf_spec]
    omega
  | some v =>
    have := sizeOf_lookupField_lt h
    simp only [Option.getD, Json.obj.sizeOf_spec]
    omega

/-- Display label of a navigation item, the JS chain
`item.group || item.item || item.tab || item.anchor || item.dropdown`. -/
def navItemLabel (item : Json) : Json :=
  jsOr (item.getD "group")
    (jsOr (item.getD "item")
      (jsOr (item.getD "tab")
        (jsOr (item.getD "anchor") (item.getD "dropdown"))))

/-- Context used when recursing into `item.pages`:
JS `context || \x60Navigation item \x27...\x27\x60`. -/
def pagesContext (ctx : String) (item : Json) : String :=
  if ctx = "" then "Navigation item \x27" ++ (navItemLabel item).jsToString ++ "\x27" else ctx

/-- Context used when recursing into `item.menu`: JS `context || \x60Tab \x27...\x27\x60`. -/
def menuContext (ctx : String) (item : Json) : String :=
  if ctx = "" then "Tab \x27" ++ (item.getD "tab").jsToString ++ "\x27" else ctx

/-- Warnings contributed by a navigation object's `href`: a relative
(non-`http`) string href with an `mcp` path segment is flagged. -/
def hrefReservedWarns (ctx : String) (item : Json) : List String :=
  match item.getD "href" with
  | .str s =>
    if (Json.str s).truthy && !(strStartsWith s "http") && hasMcpSegment s then
      [hrefReservedMsg ctx s]
    else []
  | _ => []

/-- The recursive reserved-path scanner `checkNavigationPaths` of the
main variant.  Non-array inputs are ignored; strings are scanned as page
paths; objects are recursed through `pages`, `groups`, `menu` and have
their `href` scanned; any other element (arrays included, whose accessed
properties are all `undefined`) contributes nothing. -/
def checkNavigationPaths : Json → String → List String
  | .arr (Json.str s :: rest), ctx =>
    (if hasMcpSegment s then [pageReservedMsg ctx s] else []) ++
      checkNavigationPaths (.arr rest) ctx
  | .arr (Json.obj fs :: rest), ctx =>
    (if (Json.getD (Json.obj fs) "pages").truthy then
        checkNavigationPaths (Json.getD (Json.obj fs) "pages") (pagesContext ctx (Json.obj fs))
      else []) ++
    (if (Json.getD (Json.obj fs) "groups").truthy then
        checkNavigationPaths (Json.getD (Json.obj fs) "groups") ctx
      else []) ++
    (if (Json.getD (Json.obj fs) "menu").truthy then
        checkNavigationPaths (Json.getD (Json.obj fs) "menu") (menuContext ctx (Json.obj fs))
      else []) ++
    hrefReservedWarns ctx (Json.obj fs) ++
    checkNavigationPaths (.arr rest) ctx
  | .arr (_ :: rest), ctx => checkNavigationPaths (.arr rest) ctx
  | _, _ => []
termination_by j _ => sizeOf j
decreasing_by
  all_goals
    simp only [Json.arr.sizeOf_spec, List.cons.sizeOf_spec, Json.obj.sizeOf_spec,
      Json.str.sizeOf_spec]
    first
      | omega
      | (have h1 := sizeOf_getD_lt fs "pages"
         have h2 := sizeOf_getD_lt fs "groups"
         have h3 := sizeOf_getD_lt fs "menu"
         simp only [Json.obj.sizeOf_spec] at h1 h2 h3
         omega)

/-- Per-group checks of `validateNavigation` over `navigation.groups`
(`group` name required, `pages` must be a truthy array). -/
def checkGroupsAux : List Json → Nat → Except String (List String)
  | [], _ => .ok []
  | g :: rest, i => do
    let gname ← g.get "group"
    let e1 := if !gname.truthy then [groupMissingNameMsg i] else []
    let gpages ← g.get "pages"
    let e2 := if !gpages.truthy || !gpages.isArr then [groupMissingPagesMsg gname] else []
    let es ← checkGroupsAux rest (i + 1)
    .ok (e1 ++ e2 ++ es)

/-- Per-menu-item checks inside a tab (`item` name required). -/
def checkMenuAux (tabName : Json) : List Json → Nat → Except String (List String)
  | [], _ => .ok []
  | m :: rest, i => do
    let it ← m.get "item"
    let e := if !it.truthy then [menuItemMissingMsg i tabName] else []
    let es ← checkMenuAux tabName rest (i + 1)
    .ok (e ++ es)

/-- Per-tab checks of the main variant (`tab` name required; menu items
validated when a truthy `menu` is present). -/
def checkTabsAux : List Json → Nat → Except String (List String)
  | [], _ => .ok []
  | t :: rest, i => do
    let tname ← t.get "tab"
    let e1 := if !tname.truthy then [tabMissingTabMsg i] else []
    let menu ← t.get "menu"
    let e2 ←
      if menu.truthy then do
        let items ← jsArrayElems menu
        checkMenuAux tname items 0
      else pure []
    let es ← checkTabsAux rest (i + 1)
    .ok (e1 ++ e2 ++ es)

/-- Per-anchor checks (`anchor` name required). -/
def checkAnchorsAux : List Json → Nat → Except String (List String)
  | [], _ => .ok []
  | a :: rest, i => do
    let an ← a.get "anchor"
    let e := if !an.truthy then [anchorMissingMsg i] else []
    let es ← checkAnchorsAux rest (i + 1)
    .ok (e ++ es)

/-- Per-dropdown checks (`dropdown` name required). -/
def checkDropdownsAux : List Json → Nat → Except String (List String)
  | [], _ => .ok []
  | d :: rest, i => do
    let dn ← d.get "dropdown"
    let e := if !dn.truthy then [dropdownMissingMsg i] else []
    let es ← checkDropdownsAux rest (i + 1)
    .ok (e ++ es)

/-- Reserved-path scans run for one `navigation.versions` entry. -/
def versionScanWarns (v : Json) : List String :=
  let ctx := "Version \x27" ++ (v.getD "version").jsToString ++ "\x27"
  (if (v.getD "pages").truthy then checkNavigationPaths (v.getD "pages") ctx else []) ++
  (if (v.getD "groups").truthy then checkNavigationPaths (v.getD "groups") ctx else []) ++
  (if (v.getD "tabs").truthy then checkNavigationPaths (v.getD "tabs") ctx else []) ++
  (if (v.getD "anchors").truthy then checkNavigationPaths (v.getD "anchors") ctx else []) ++
  (if (v.getD "dropdowns").truthy then checkNavigationPaths (v.getD "dropdowns") ctx else [])

/-- Per-version checks (`version` label required, then scans). -/
def checkVersionsAux : List Json → Nat → Except String (List String × List String)
  | [], _ => .ok ([], [])
  | v :: rest, i => do
    let ver ← v.get "version"
    let e := if !ver.truthy then [versionMissingMsg i] else []
    let w := versionScanWarns v
    let (es, ws) ← checkVersionsAux rest (i + 1)
    .ok (e ++ es, w ++ ws)

/-- Reserved-path scans run for one `navigation.languages` entry. -/
def languageScanWarns (l : Json) : List String :=
  let ctx := "Language \x27" ++ (l.getD "language").jsToString ++ "\x27"
  (if (l.getD "pages").truthy then checkNavigationPaths (l.getD "pages") ctx else []) ++
  (if (l.getD "groups").truthy then checkNavigationPaths (l.getD "groups") ctx else []) ++
  (if (l.getD "tabs").truthy then checkNavigationPaths (l.getD "tabs") ctx else []) ++
  (if (l.getD "anchors").truthy then checkNavigationPaths (l.getD "anchors") ctx else []) ++
  (if (l.getD "dropdowns").truthy then checkNavigationPaths (l.getD "dropdowns") ctx else [])

/-- Per-language checks (`language` code required; unknown codes warn). -/
def checkLanguagesAux : List Json → Nat → Except String (List String × List String)
  | [], _ => .ok ([], [])
  | l :: rest, i => do
    let lang ← l.get "language"
    let ew : List String × List String :=
      if !lang.truthy then ([languageMissingMsg i], [])
      else if !isValidLanguage lang then ([], [languageWarnMsg lang])
      else ([], [])
    let w2 := languageScanWarns l
    let (es, ws) ← checkLanguagesAux rest (i + 1)
    .ok (ew.1 ++ es, ew.2 ++ w2 ++ ws)

/-- Per-global-anchor checks (`anchor` and an external `href` required). -/
def checkGlobalAnchorsAux : List Json → Nat → Except String (List String)
  | [], _ => .ok []
  | a :: rest, i => do
    let an ← a.get "anchor"
    let e1 := if !an.truthy then [globalAnchorMissingMsg i] else []
    let href ← a.get "href"
    let e2 ←
      if !href.truthy then pure [globalAnchorHrefMissingMsg an]
      else do
        let st ← jsStartsWithHttp href
        pure (if !st then [globalAnchorHrefExternalMsg an] else [])
    let es ← checkGlobalAnchorsAux rest (i + 1)
    .ok (e1 ++ e2 ++ es)

/-- The tab loop of `validateNavigation` in the main variant. -/
def checkTabsMain (tabs : List Json) : Except String (List String) := checkTabsAux tabs 0

/-- The tab loop of the legacy variants (part_000 / part_001):
`name` and `url` are the required keys. -/
def checkTabsLegacyAux : List Json → Nat → Except String (List String)
  | [], _ => .ok []
  | t :: rest, i => do
    let nm ← t.get "name"
    let e1 := if !nm.truthy then [tabMissingNameMsg i] else []
    let url ← t.get "url"
    let e2 := if !url.truthy then [tabMissingUrlMsg nm] else []
    let es ← checkTabsLegacyAux rest (i + 1)
    .ok (e1 ++ e2 ++ es)

/-- Legacy tab validation entry point. -/
def checkTabsLegacy (tabs : List Json) : Except String (List String) := checkTabsLegacyAux tabs 0

/-- The `validateRequiredFields` helper of the main variant. -/
def validateRequiredFields (config : Json) : Except String (List String) := do
  let theme ← config.get "theme"
  let e1 :=
    if !theme.truthy then [themeRequiredMsg]
    else if !isValidTheme theme then [invalidThemeMsg theme]
    else []
  let name ← config.get "name"
  let e2 := if !name.truthy then [nameRequiredMsg] else []
  .ok (e1 ++ e2)

/-- The `validateColors` helper of the main variant. -/
def validateColors (config : Json) : Except String (List String) := do
  let colors ← config.get "colors"
  let e1 ←
    if !colors.truthy then pure [colorsPrimaryRequiredMsg]
    else do
      let primary ← colors.get "primary"
      if !primary.truthy then pure [colorsPrimaryRequiredMsg]
      else do
        let m ← jsMatch isHexColor primary
        pure (if !m then [colorsPrimaryInvalidMsg] else [])
  let e2 ←
    if colors.truthy then do
      let light ← colors.get "light"
      let el ←
        if light.truthy then do
          let m ← jsMatch isHexColor light
          pure (if !m then [colorsModeInvalidMsg "light"] else [])
        else pure []
      let dark ← colors.get "dark"
      let ed ←
        if dark.truthy then do
          let m ← jsMatch isHexColor dark
          pure (if !m then [colorsModeInvalidMsg "dark"] else [])
        else pure []
      pure (el ++ ed)
    else pure []
  .ok (e1 ++ e2)

/-- The `validateNavigation` helper of the main variant; returns the
errors and warnings it appends, in order. -/
def validateNavigation (config : Json) : Except String (List String × List String) := do
  let nav ← config.get "navigation"
  if !nav.truthy then
    pure ([navigationRequiredMsg], [])
  else do
    let pages ← nav.get "pages"
    let w1 := if pages.truthy then checkNavigationPaths pages "Root navigation" else []
    let groups ← nav.get "groups"
    let (e1, w2) ←
      if groups.truthy then do
        let gs ← jsArrayElems groups
        let es ← checkGroupsAux gs 0
        pure (es, checkNavigationPaths groups "")
      else pure ([], [])
    let tabs ← nav.get "tabs"
    let (e2, w3) ←
      if tabs.truthy then do
        let ts ← jsArrayElems tabs
        let es ← checkTabsMain ts
        pure (es, checkNavigationPaths tabs "")
      else pure ([], [])
    let anchors ← nav.get "anchors"
    let (e3, w4) ←
      if anchors.truthy then do
        let as0 ← jsArrayElems anchors
        let es ← checkAnchorsAux as0 0
        pure (es, checkNavigationPaths anchors "")
      else pure ([], [])
    let dropdowns ← nav.get "dropdowns"
    let (e4, w5) ←
      if dropdowns.truthy then do
        let ds ← jsArrayElems dropdowns
        let es ← checkDropdownsAux ds 0
        pure (es, checkNavigationPaths dropdowns "")
      else pure ([], [])
    let versions ← nav.get "versions"
    let (e5, w6) ←
      if versions.truthy then do
        let vs ← jsArrayElems versions
        checkVersionsAux vs 0
      else pure ([], [])
    let languages ← nav.get "languages"
    let (e6, w7) ←
      if languages.truthy then do
        let ls ← jsArrayElems languages
        checkLanguagesAux ls 0
      else pure ([], [])
    let global ← nav.get "global"
    let ganchors := optChainGet global "anchors"
    let (e7, w8) ←
      if ganchors.truthy then do
        let gas ← jsArrayElems ganchors
        let es ← checkGlobalAnchorsAux gas 0
        pure (es, checkNavigationPaths ganchors "Global anchors")
      else pure ([], [])
    pure (e1 ++ e2 ++ e3 ++ e4 ++ e5 ++ e6 ++ e7,
      w1 ++ w2 ++ w3 ++ w4 ++ w5 ++ w6 ++ w7 ++ w8)

/-- The `validateAssets` helper of the main variant (warnings only). -/
def validateAssets (config : Json) : Except String (List String) := do
  let logo ← config.get "logo"
  let w1 ←
    if logo.truthy then
      if logo.isObjectType then do
        let href ← logo.get "href"
        if href.truthy then do
          let m ← jsMatch isHttpUrl href
          pure (if !m then [logoHrefWarnMsg] else [])
        else pure []
      else pure []
    else pure []
  let favicon ← config.get "favicon"
  let w2 ←
    if favicon.truthy then do
      let m ← jsMatch faviconExtOk favicon
      pure (if !m then [faviconWarnMsg] else [])
    else pure []
  .ok (w1 ++ w2)

/-- The `validateIntegrations` helper of the main variant. -/
def validateIntegrations (config : Json) : Except String (List String) := do
  let ints ← config.get "integrations"
  if !ints.truthy then pure []
  else do
    let ga4 ← ints.get "ga4"
    let w1 ←
      if ga4.truthy then do
        let mid ← ga4.get "measurementId"
        if mid.truthy then do
          let m ← jsMatch ga4IdOk mid
          pure (if !m then [ga4WarnMsg] else [])
        else pure []
      else pure []
    let gtm ← ints.get "gtm"
    let w2 ←
      if gtm.truthy then do
        let cid ← gtm.get "containerId"
        if cid.truthy then do
          let m ← jsMatch gtmIdOk cid
          pure (if !m then [gtmWarnMsg] else [])
        else pure []
      else pure []
    pure (w1 ++ w2)

/-- The `validateBestPractices` helper of the main variant. -/
def validateBestPractices (config : Json) : Except String (List String) := do
  let schema ← config.get "$schema"
  let w1 := if !schema.truthy then [schemaNudgeMsg] else []
  let desc ← config.get "description"
  let w2 := if !desc.truthy then [descriptionNudgeMsg] else []
  let fav ← config.get "favicon"
  let w3 := if !fav.truthy then [faviconNudgeMsg] else []
  let logo ← config.get "logo"
  let w4 := if !logo.truthy then [logoNudgeMsg] else []
  .ok (w1 ++ w2 ++ w3 ++ w4)

structure ValidationResult where
  errors : List String
  warnings : List String
  isValid : Bool
  deriving DecidableEq, Repr

/-- The `validateDocsJson` orchestrator of the main variant. -/
def validateDocsJson (config : Json) : Except String ValidationResult := do
  let e1 ← validateRequiredFields config
  let e2 ← validateColors config
  let (e3, w1) ← validateNavigation config
  let w2 ← validateAssets config
  let w3 ← validateIntegrations config
  let w4 ← validateBestPractices config
  let errors := e1 ++ e2 ++ e3
  let warnings := w1 ++ w2 ++ w3 ++ w4
  .ok { errors := errors, warnings := warnings, isValid := errors.length == 0 }

/-- The fixed result the main variant shows when parsing fails. -/
def parseErrorResult : ValidationResult :=
  { errors := [jsonParseErrorMsg], warnings := [], isValid := false }

/-- The `parsedConfig` memo: `null` for blank input or a parse failure,
the parsed value otherwise.  The parser itself (`JSON.parse`) is outside
the repository and is passed in abstractly. -/
def parsedConfigOf (parse : String → Option Json) (input : String) : Option Json :=
  if jsTrim input = "" then none
  else
    match parse input with
    | some j => some j
    | none => none

/-- The `validationResult` memo: `null` for blank input; the fixed parse
error result when `parsedConfig` is falsy (a failed parse, or a parsed
value such as `null`, `0`, `false`, `""` that JS treats as falsy);
otherwise the result of running `validateDocsJson`, which can itself
throw (modelled by the inner `Except`). -/
def validationResultOf (parse : String → Option Json) (input : String) :
    Option (Except String ValidationResult) :=
  if jsTrim input = "" then none
  else
    match parsedConfigOf parse input with
    | none => some (.ok parseErrorResult)
    | some j =>
      if !j.truthy then some (.ok parseErrorResult)
      else some (validateDocsJson j)

/-- The nine top-level keys the main validator reads from the document. -/
def inspectedKeys : List String :=
  ["theme", "name", "colors", "navigation", "logo", "favicon", "integrations",
    "$schema", "description"]

/-- Whether a value can be the receiver of a property access without
throwing (it is neither `null` nor `undefined`). -/
def elemSafe : Json → Bool
  | .null => false
  | .undefined => false
  | _ => true

/-- Whether a `menu` value lets the tab check run without throwing:
either falsy (skipped) or an array of safe elements. -/
def menuOk : Json → Bool
  | .arr ms => ms.all elemSafe
  | j => !j.truthy

/-- Rendering of one flagged reserved-path occurrence
`(isHref, context, path)` as the scanner's warning text: the warning
embeds the offending path between a context/kind opener and the fixed
reserved-path tail. -/
def renderOcc : Bool × String × String → String
  | (true, ctx, p) => hrefReservedMsg ctx p
  | (false, ctx, p) => pageReservedMsg ctx p

/-- Modelled from the claim wording: the `href` occurrence of one
navigation object that the reserved-path rule flags — a truthy string
`href` that does not start with `http` (external links are exempt) and
whose slash-separated segments include `mcp`. -/
def hrefOcc (ctx : String) (item : Json) : List (Bool × String × String) :=
  match item.getD "href" with
  | .str s =>
    if (Json.str s).truthy && !(strStartsWith s "http") && hasMcpSegment s then
      [(true, ctx, s)]
    else []
  | _ => []

/-- Modelled from the claim wording: all occurrences flagged by the
reserved-path scan, in traversal order — each string page path with an
`mcp` segment, and each relative string `href` with an `mcp` segment. -/
def mcpOccs : Json → String → List (Bool × String × String)
  | .arr (Json.str s :: rest), ctx =>
    (if hasMcpSegment s then [(false, ctx, s)] else []) ++ mcpOccs (.arr rest) ctx
  | .arr (Json.obj fs :: rest), ctx =>
    (if (Json.getD (Json.obj fs) "pages").truthy then
        mcpOccs (Json.getD (Json.obj fs) "pages") (pagesContext ctx (Json.obj fs))
      else []) ++
    (if (Json.getD (Json.obj fs) "groups").truthy then
        mcpOccs (Json.getD (Json.obj fs) "groups") ctx
      else []) ++
    (if (Json.getD (Json.obj fs) "menu").truthy then
        mcpOccs (Json.getD (Json.obj fs) "menu") (menuContext ctx (Json.obj fs))
      else []) ++
    hrefOcc ctx (Json.obj fs) ++
    mcpOccs (.arr rest) ctx
  | .arr (_ :: rest), ctx => mcpOccs (.arr rest) ctx
  | _, _ => []
termination_by j _ => sizeOf j
decreasing_by
  all_goals
    simp only [Json.arr.sizeOf_spec, List.cons.sizeOf_spec, Json.obj.sizeOf_spec,
      Json.str.sizeOf_spec]
    first
      | omega
      | (have h1 := sizeOf_getD_lt fs "pages"
         have h2 := sizeOf_getD_lt fs "groups"
         have h3 := sizeOf_getD_lt fs "menu"
         simp only [Json.obj.sizeOf_spec] at h1 h2 h3
         omega)

theorem hrefReservedWarns_eq (ctx : String) (item : Json) :
    hrefReservedWarns ctx item = (hrefOcc ctx item).map renderOcc := by
  unfold hrefReservedWarns hrefOcc
  split
  · split <;> simp [renderOcc]
  · simp

theorem checkNavigationPaths_eq_occs (j : Json) (ctx : String) :
    checkNavigationPaths j ctx = (mcpOccs j ctx).map renderOcc := by
  induction j, ctx using checkNavigationPaths.induct with
  | case1 s rest ctx ih =>
    rw [checkNavigationPaths, mcpOccs]
    split <;> simp [renderOcc, ih]
  | case2 fs rest ctx ih1 ih2 ih3 ih4 =>
    rw [checkNavigationPaths, mcpOccs, hrefReservedWarns_eq, ih1, ih2, ih3, ih4]
    simp only [List.map_append, apply_ite (List.map renderOcc), List.map_nil]
  | case3 j rest ctx h1 h2 ih =>
    rw [checkNavigationPaths, mcpOccs] <;> first | exact ih | exact h1 | exact h2
  | case4 j ctx h1 h2 h3 =>
    rw [checkNavigationPaths, mcpOccs] <;>
      first | exact h1 | exact h2 | exact h3 | simp

theorem mcpOccs_sound (j : Json) (ctx : String) :
    ∀ o ∈ mcpOccs j ctx, hasMcpSegment o.2.2 = true ∧
      (o.1 = true → strStartsWith o.2.2 "http" = false) := by
  induction j, ctx using mcpOccs.induct with
  | case1 s rest ctx ih =>
    rw [mcpOccs]
    intro o ho
    rcases List.mem_append.mp ho with h | h
    · split at h
      · rename_i hc
        simp only [List.mem_singleton] at h
        subst h
        exact ⟨hc, by simp⟩
      · simp at h
    · exact ih o h
  | case2 fs rest ctx ih1 ih2 ih3 ih4 =>
    rw [mcpOccs]
    intro o ho
    simp only [List.append_assoc, List.mem_append] at ho
    rcases ho with h | h | h | h | h
    · split at h
      · exact ih1 o h
      · simp at h
    · split at h
      · exact ih2 o h
      · simp at h
    · split at h
      · exact ih3 o h
      · simp at h
    · unfold hrefOcc at h
      split at h
      · split at h
        · rename_i hcond
          simp only [List.mem_singleton] at h
          subst h
          simp only [Bool.and_eq_true, Bool.not_eq_true'] at hcond
          exact ⟨hcond.2, fun _ => hcond.1.2⟩
        · simp at h
      · simp at h
    · exact ih4 o h
  | case3 j rest ctx h1 h2 ih =>
    rw [mcpOccs] <;> first | exact ih | exact h1 | exact h2
  | case4 j ctx h1 h2 h3 =>
    rw [mcpOccs] <;> first | exact h1 | exact h2 | exact h3 | simp

/-- Claim C3: the reserved-path scanner emits exactly one warning per flagged
occurrence — the warnings are precisely the rendering, in traversal
order, of the occurrence list, where each rendered warning embeds the
occurrence's own path — and every flagged occurrence has a slash
segment equal to `mcp`, while an `href` occurrence additionally never
starts with `http` (external links are exempt). -/
theorem c3_reserved_path_scanner (j : Json) (ctx : String) :
    checkNavigationPaths j ctx = (mcpOccs j ctx).map renderOcc ∧
    ∀ o ∈ mcpOccs j ctx, hasMcpSegment o.2.2 = true ∧
      (o.1 = true → strStartsWith o.2.2 "http" = false) :=
  ⟨checkNavigationPaths_eq_occs j ctx, mcpOccs_sound j ctx⟩

/-- Witness for C3 at concrete inputs: the page path
`guides/mcp/setup` yields exactly its one warning, and an external
`http://host/mcp/setup` href yields none. -/
theorem c3_scanner_witness :
    checkNavigationPaths (Json.arr [Json.str "guides/mcp/setup"]) "Root navigation" =
      [pageReservedMsg "Root navigation" "guides/mcp/setup"] ∧
    checkNavigationPaths (Json.arr [Json.obj [("href", Json.str "http://host/mcp/setup")]])
      "Root navigation" = [] := by
  have h1 := c3_reserved_path_scanner (Json.arr [Json.str "guides/mcp/setup"]) "Root navigation"
  have h2 := c3_reserved_path_scanner
    (Json.arr [Json.obj [("href", Json.str "http://host/mcp/setup")]]) "Root navigation"
  have e1 : mcpOccs (Json.arr [Json.str "guides/mcp/setup"]) "Root navigation" =
      [(false, "Root navigation", "guides/mcp/setup")] := by
    rw [mcpOccs, if_pos (by decide : hasMcpSegment "guides/mcp/setup" = true)]
    rw [mcpOccs] <;> simp
  have e2 : mcpOccs (Json.arr [Json.obj [("href", Json.str "http://host/mcp/setup")]])
      "Root navigation" = [] := by
    rw [mcpOccs]
    rw [if_neg (by decide), if_neg (by decide), if_neg (by decide)]
    rw [mcpOccs]
    all_goals first | decide | simp
  constructor
  · rw [h1.1, e1]
    simp [renderOcc]
  · rw [h2.1, e2]
    simp

/-- Claim C1: on the empty JSON object the validator reports exactly the four
required-field violations — theme, name, colors.primary, navigation —
in that declared order, with `isValid = false` (and the four
best-practice nudges as warnings). -/
theorem c1_empty_document :
    validateDocsJson (Json.obj []) =
      .ok { errors := [themeRequiredMsg, nameRequiredMsg, colorsPrimaryRequiredMsg,
              navigationRequiredMsg],
            warnings := [schemaNudgeMsg, descriptionNudgeMsg, faviconNudgeMsg, logoNudgeMsg],
            isValid := false } := by
  decide

/-- Claim C2 failing input: on the parseable document
`\x7b"colors":\x7b"primary":123\x7d\x7d` the validator calls `.match` on a number
and throws a TypeError instead of returning a ValidationResult, both at
the `validateDocsJson` level and through the parse-then-validate
pipeline. -/
theorem c2_validator_type_error :
    validateDocsJson (Json.obj [("colors", Json.obj [("primary", Json.num 123)])]) =
      .error "TypeError: match is not a function" ∧
    validationResultOf
        (fun _ => some (Json.obj [("colors", Json.obj [("primary", Json.num 123)])]))
        "\x7b\"colors\":\x7b\"primary\":123\x7d\x7d" =
      some (.error "TypeError: match is not a function") := by
  constructor <;> decide

/-- Claim C7: the validator is a pure function of the parsed document — two
validation runs on the same document yield the same result, error and
warning lists included. -/
theorem c7_deterministic (d : Json) (r1 r2 : Except String ValidationResult)
    (h1 : validateDocsJson d = r1) (h2 : validateDocsJson d = r2) : r1 = r2 :=
  h1.symm.trans h2

/-- Witness for C7 at a concrete document. -/
theorem c7_deterministic_witness :
    validateDocsJson (Json.obj [("name", Json.str "Demo")]) =
      validateDocsJson (Json.obj [("name", Json.str "Demo")]) :=
  c7_deterministic (Json.obj [("name", Json.str "Demo")]) _ _ rfl rfl

/-- Claim C4 counterexample: the empty input text is not parseable as JSON,
yet the pipeline returns no ValidationResult at all (`null`), because
blank input short-circuits the whole pass. -/
theorem c4_empty_input_counterexample :
    validationResultOf (fun _ => none) "" = none := rfl

/-- Claim C4 as amended: for every input text with non-whitespace content whose
parse fails, the pipeline returns exactly the single-item parse-error
result, with no warnings, `isValid = false`, and no structural checks
attempted. -/
theorem c4_parse_error_result (parse : String → Option Json) (input : String)
    (hne : jsTrim input ≠ "") (hfail : parse input = none) :
    validationResultOf parse input = some (.ok parseErrorResult) := by
  unfold validationResultOf parsedConfigOf
  rw [if_neg hne, if_neg hne, hfail]

/-- Witness for C4 at the concrete input of scenario 6. -/
theorem c4_parse_error_witness :
    validationResultOf (fun _ => none) "\x7bnot json" = some (.ok parseErrorResult) :=
  c4_parse_error_result (fun _ => none) "\x7bnot json" (by decide) rfl

theorem string_data_append (a b : String) : (a ++ b).data = a.data ++ b.data := rfl

theorem string_eq_of_data {a b : String} (h : a.data = b.data) : a = b :=
  String.ext h

theorem string_append_assoc (a b c : String) : a ++ b ++ c = a ++ (b ++ c) :=
  string_eq_of_data (by simp [string_data_append])

/-- Two strings that differ at character position `n` of their leading
literal parts are different, whatever their tails. -/
theorem string_ne_of_head_ne (p1 x1 p2 x2 : String) (n : Nat)
    (hn1 : n < p1.data.length) (hn2 : n < p2.data.length)
    (hne : p1.data.get? n ≠ p2.data.get? n) :
    p1 ++ x1 ≠ p2 ++ x2 := by
  intro he
  apply hne
  have hd : p1.data ++ x1.data = p2.data ++ x2.data := by
    have := congrArg String.data he
    simpa [string_data_append] using this
  calc p1.data.get? n = (p1.data ++ x1.data).get? n := (List.get?_append hn1).symm
    _ = (p2.data ++ x2.data).get? n := by rw [hd]
    _ = p2.data.get? n := List.get?_append hn2

theorem string_append_empty (s : String) : s ++ "" = s :=
  string_eq_of_data (by simp [string_data_append])

/-- A string headed by one literal differs from a plain literal that
disagrees at position `n`. -/
theorem string_ne_of_head_ne_lit (p1 x1 p2 : String) (n : Nat)
    (hn1 : n < p1.data.length) (hn2 : n < p2.data.length)
    (hne : p1.data.get? n ≠ p2.data.get? n) :
    p1 ++ x1 ≠ p2 := by
  intro he
  exact string_ne_of_head_ne p1 x1 p2 "" n hn1 hn2 hne (by rw [string_append_empty, he])

theorem invalidThemeMsg_ne_themeRequired (t : Json) : invalidThemeMsg t ≠ themeRequiredMsg := by
  unfold invalidThemeMsg themeRequiredMsg
  rw [string_append_assoc, string_append_assoc]
  exact string_ne_of_head_ne_lit _ _ _ 0 (by decide) (by decide) (by decide)

theorem invalidThemeMsg_ne_nameRequired (t : Json) : invalidThemeMsg t ≠ nameRequiredMsg := by
  unfold invalidThemeMsg nameRequiredMsg
  rw [string_append_assoc, string_append_assoc]
  exact string_ne_of_head_ne_lit _ _ _ 0 (by decide) (by decide) (by decide)

/-- Claim C5 counterexample: a document whose `theme` key is present but
bound to the empty string — a value outside the seven valid themes —
receives the missing-theme error, not the invalid-theme error the claim
predicts for a present-but-invalid value. -/
theorem c5_falsy_theme_counterexample :
    validateDocsJson (Json.obj [("theme", Json.str "")]) =
      .ok { errors := [themeRequiredMsg, nameRequiredMsg, colorsPrimaryRequiredMsg,
              navigationRequiredMsg],
            warnings := [schemaNudgeMsg, descriptionNudgeMsg, faviconNudgeMsg, logoNudgeMsg],
            isValid := false } ∧
    invalidThemeMsg (Json.str "") ∉ [themeRequiredMsg, nameRequiredMsg,
      colorsPrimaryRequiredMsg, navigationRequiredMsg] := by
  constructor
  · decide
  · decide

/-- Claim C5 as amended: a falsy `theme` value (absent, or present but empty,
`false`, `0` or `null`) gets the missing-theme error and never the
invalid-theme error; a truthy value outside the seven valid themes gets
the invalid-theme error naming it and not the missing error; a truthy
valid theme gets neither. -/
theorem c5_theme_value_errors (fields : List (String × Json)) :
    ∃ es, validateRequiredFields (Json.obj fields) = .ok es ∧
      ((Json.getD (Json.obj fields) "theme").truthy = false →
        themeRequiredMsg ∈ es ∧ ∀ u : Json, invalidThemeMsg u ∉ es) ∧
      (∀ t, Json.getD (Json.obj fields) "theme" = t → t.truthy = true →
        isValidTheme t = false → invalidThemeMsg t ∈ es ∧ themeRequiredMsg ∉ es) ∧
      ((Json.getD (Json.obj fields) "theme").truthy = true →
        isValidTheme (Json.getD (Json.obj fields) "theme") = true →
        themeRequiredMsg ∉ es ∧ ∀ u : Json, invalidThemeMsg u ∉ es) := by
  refine ⟨_, rfl, ?_, ?_, ?_⟩
  · intro htf
    rw [if_pos (show (!(Json.getD (Json.obj fields) "theme").truthy) = true by simp [htf])]
    constructor
    · simp
    · intro u hu
      rcases List.mem_append.mp hu with h | h
      · simp only [List.mem_singleton] at h
        exact invalidThemeMsg_ne_themeRequired u h
      · split at h
        · simp only [List.mem_singleton] at h
          exact invalidThemeMsg_ne_nameRequired u h
        · simp at h
  · intro t ht htt htv
    rw [ht]
    rw [if_neg (show ¬(!t.truthy) = true by simp [htt]),
      if_pos (show (!isValidTheme t) = true by simp [htv])]
    constructor
    · simp
    · intro hm
      rcases List.mem_append.mp hm with h | h
      · simp only [List.mem_singleton] at h
        exact invalidThemeMsg_ne_themeRequired t h.symm
      · split at h
        · simp only [List.mem_singleton] at h
          exact (by decide : themeRequiredMsg ≠ nameRequiredMsg) h
        · simp at h
  · intro htt htv
    rw [if_neg (show ¬(!(Json.getD (Json.obj fields) "theme").truthy) = true by simp [htt]),
      if_neg (show ¬(!isValidTheme (Json.getD (Json.obj fields) "theme")) = true by simp [htv])]
    constructor
    · intro hm
      rcases List.mem_append.mp hm with h | h
      · simp at h
      · split at h
        · simp only [List.mem_singleton] at h
          exact (by decide : themeRequiredMsg ≠ nameRequiredMsg) h
        · simp at h
    · intro u hu
      rcases List.mem_append.mp hu with h | h
      · simp at h
      · split at h
        · simp only [List.mem_singleton] at h
          exact invalidThemeMsg_ne_nameRequired u h
        · simp at h

/-- Witness for C5 at the concrete theme value `bogus` from scenario 3. -/
theorem c5_theme_value_witness :
    ∃ es, validateRequiredFields
        (Json.obj [("theme", Json.str "bogus"), ("name", Json.str "X")]) = .ok es ∧
      invalidThemeMsg (Json.str "bogus") ∈ es ∧ themeRequiredMsg ∉ es := by
  obtain ⟨es, h1, -, h2, -⟩ :=
    c5_theme_value_errors [("theme", Json.str "bogus"), ("name", Json.str "X")]
  obtain ⟨h3, h4⟩ := h2 (Json.str "bogus") rfl (by decide) (by decide)
  exact ⟨es, h1, h3, h4⟩

/-- Claim C10: presence of `theme` and `name` is decided by truthiness, not by
key existence — a present-but-falsy `theme` or `name` receives the
missing-field error, and a falsy `theme` never receives the
invalid-theme error. -/
theorem c10_truthy_required (fields : List (String × Json)) :
    ∃ es, validateRequiredFields (Json.obj fields) = .ok es ∧
      (∀ tv, lookupField fields "theme" = some tv → tv.truthy = false →
        themeRequiredMsg ∈ es ∧ ∀ u : Json, invalidThemeMsg u ∉ es) ∧
      (∀ nv, lookupField fields "name" = some nv → nv.truthy = false →
        nameRequiredMsg ∈ es) := by
  obtain ⟨es, h1, hfalse, -, -⟩ := c5_theme_value_errors fields
  refine ⟨es, h1, ?_, ?_⟩
  · intro tv htv hf
    have hgd : Json.getD (Json.obj fields) "theme" = tv := by simp [Json.getD, htv]
    exact hfalse (by rw [hgd, hf])
  · intro nv hnv hf
    have hgd : Json.getD (Json.obj fields) "name" = nv := by simp [Json.getD, hnv]
    have h1' : validateRequiredFields (Json.obj fields) = .ok es := h1
    rw [show validateRequiredFields (Json.obj fields) =
      Except.ok ((if !(Json.getD (Json.obj fields) "theme").truthy then [themeRequiredMsg]
        else if !isValidTheme (Json.getD (Json.obj fields) "theme") then
          [invalidThemeMsg (Json.getD (Json.obj fields) "theme")] else []) ++
        (if !(Json.getD (Json.obj fields) "name").truthy then [nameRequiredMsg] else []))
      from rfl] at h1'
    cases h1'
    simp [hgd, hf]

theorem except_ok_bind {e a b : Type} (x : a) (f : a → Except e b) :
    (Except.ok x : Except e a) >>= f = f x := rfl

theorem except_pure_bind {e a b : Type} (x : a) (f : a → Except e b) :
    (pure x : Except e a) >>= f = f x := rfl

theorem tabUrlMsg_ne_nameMsg (nm : Json) : tabMissingUrlMsg nm ≠ tabMissingNameMsg 0 := by
  unfold tabMissingUrlMsg tabMissingNameMsg
  rw [string_append_assoc]
  rw [string_append_assoc]
  exact string_ne_of_head_ne _ _ _ _ 15 (by decide) (by decide) (by decide)

/-- Claim C6 counterexample: a `navigation.tabs` entry in the legacy shape
`\x7b"name": ..., "url": ...\x7d` is not accepted by the validator — it still
reports the entry as missing the `tab` property, so `name` is not a
fallback name key. -/
theorem c6_legacy_tab_counterexample :
    checkTabsMain [Json.obj [("name", Json.str "Documentation"), ("url", Json.str "docs")]] =
      .ok [tabMissingTabMsg 0] ∧
    validateNavigation (Json.obj [("navigation", Json.obj [("tabs",
        Json.arr [Json.obj [("name", Json.str "Documentation"), ("url", Json.str "docs")]])])]) =
      .ok ([tabMissingTabMsg 0], []) := by
  constructor
  · decide
  · have hscan : checkNavigationPaths (Json.arr [Json.obj [("name", Json.str "Documentation"),
        ("url", Json.str "docs")]]) "" = [] := by
      rw [checkNavigationPaths]
      rw [if_neg (by decide), if_neg (by decide), if_neg (by decide)]
      rw [checkNavigationPaths]
      all_goals first | decide | simp
    have h0 : validateNavigation (Json.obj [("navigation", Json.obj [("tabs",
        Json.arr [Json.obj [("name", Json.str "Documentation"), ("url", Json.str "docs")]])])]) =
        .ok ([tabMissingTabMsg 0],
          [] ++ [] ++ checkNavigationPaths (Json.arr [Json.obj [("name", Json.str "Documentation"),
            ("url", Json.str "docs")]]) "" ++ [] ++ [] ++ [] ++ [] ++ []) := rfl
    rw [hscan] at h0
    simpa using h0

/-- Claim C6 as amended: the main validator requires the `tab` key on every
`navigation.tabs` entry — an entry carrying only the legacy `name` (and
`url`) still gets the indexed missing-`tab` error — while the legacy
variant instead requires `name` and, independently, `url`; each error
appears exactly when the corresponding key is falsy. -/
theorem c6_tab_requirements (fs : List (String × Json))
    (hmenu : (Json.getD (Json.obj fs) "menu").truthy = false) :
    ∃ esM esL,
      checkTabsMain [Json.obj fs] = .ok esM ∧
      checkTabsLegacy [Json.obj fs] = .ok esL ∧
      (tabMissingTabMsg 0 ∈ esM ↔ (Json.getD (Json.obj fs) "tab").truthy = false) ∧
      (tabMissingNameMsg 0 ∈ esL ↔ (Json.getD (Json.obj fs) "name").truthy = false) ∧
      (tabMissingUrlMsg (Json.getD (Json.obj fs) "name") ∈ esL ↔
        (Json.getD (Json.obj fs) "url").truthy = false) := by
  have hM : checkTabsMain [Json.obj fs] =
      .ok ((if !(Json.getD (Json.obj fs) "tab").truthy then [tabMissingTabMsg 0] else []) ++
        [] ++ []) := by
    have hmenu2 := hmenu
    unfold checkTabsMain
    rw [checkTabsAux]
    simp only [Json.get, Json.getD] at hmenu2 ⊢
    simp only [except_ok_bind, except_pure_bind, hmenu2, Bool.false_eq_true, if_false]
    simp only [checkTabsAux, except_ok_bind, except_pure_bind]
  have hL : checkTabsLegacy [Json.obj fs] =
      .ok ((if !(Json.getD (Json.obj fs) "name").truthy then [tabMissingNameMsg 0] else []) ++
        (if !(Json.getD (Json.obj fs) "url").truthy then
          [tabMissingUrlMsg (Json.getD (Json.obj fs) "name")] else []) ++ []) := rfl
  have hne1 := tabUrlMsg_ne_nameMsg (Json.getD (Json.obj fs) "name")
  have hne2 : tabMissingNameMsg 0 ≠ tabMissingUrlMsg (Json.getD (Json.obj fs) "name") :=
    fun h => hne1 h.symm
  refine ⟨_, _, hM, hL, ?_, ?_, ?_⟩
  · cases hc : (Json.getD (Json.obj fs) "tab").truthy <;> simp [hc]
  · cases hn : (Json.getD (Json.obj fs) "name").truthy <;>
      cases hu : (Json.getD (Json.obj fs) "url").truthy <;> simp [hn, hu, hne1, hne2]
  · cases hn : (Json.getD (Json.obj fs) "name").truthy <;>
      cases hu : (Json.getD (Json.obj fs) "url").truthy <;> simp [hn, hu, hne1, hne2]

/-- Witness for C6 at the legacy-shaped tab of the older examples. -/
theorem c6_tab_requirements_witness :
    ∃ esM esL,
      checkTabsMain [Json.obj [("name", Json.str "Documentation"), ("url", Json.str "docs")]] =
        .ok esM ∧
      checkTabsLegacy [Json.obj [("name", Json.str "Documentation"), ("url", Json.str "docs")]] =
        .ok esL ∧
      tabMissingTabMsg 0 ∈ esM ∧ tabMissingNameMsg 0 ∉ esL := by
  obtain ⟨esM, esL, h1, h2, h3, h4, h5⟩ := c6_tab_requirements
    [("name", Json.str "Documentation"), ("url", Json.str "docs")] (by decide)
  refine ⟨esM, esL, h1, h2, h3.mpr (by decide), fun hm => ?_⟩
  exact absurd (h4.mp hm) (by decide)

theorem validateRequiredFields_congr (c1 c2 : Json)
    (h1 : c1.get "theme" = c2.get "theme") (h2 : c1.get "name" = c2.get "name") :
    validateRequiredFields c1 = validateRequiredFields c2 := by
  unfold validateRequiredFields
  rw [h1, h2]

theorem validateColors_congr (c1 c2 : Json) (h : c1.get "colors" = c2.get "colors") :
    validateColors c1 = validateColors c2 := by
  unfold validateColors
  rw [h]

theorem validateNavigation_congr (c1 c2 : Json) (h : c1.get "navigation" = c2.get "navigation") :
    validateNavigation c1 = validateNavigation c2 := by
  unfold validateNavigation
  rw [h]

theorem validateAssets_congr (c1 c2 : Json) (h1 : c1.get "logo" = c2.get "logo")
    (h2 : c1.get "favicon" = c2.get "favicon") :
    validateAssets c1 = validateAssets c2 := by
  unfold validateAssets
  rw [h1, h2]

theorem validateIntegrations_congr (c1 c2 : Json)
    (h : c1.get "integrations" = c2.get "integrations") :
    validateIntegrations c1 = validateIntegrations c2 := by
  unfold validateIntegrations
  rw [h]

theorem validateBestPractices_congr (c1 c2 : Json)
    (h1 : c1.get "$schema" = c2.get "$schema")
    (h2 : c1.get "description" = c2.get "description")
    (h3 : c1.get "favicon" = c2.get "favicon") (h4 : c1.get "logo" = c2.get "logo") :
    validateBestPractices c1 = validateBestPractices c2 := by
  unfold validateBestPractices
  rw [h1, h2, h3, h4]

theorem validateDocsJson_congr (c1 c2 : Json)
    (htheme : c1.get "theme" = c2.get "theme") (hname : c1.get "name" = c2.get "name")
    (hcolors : c1.get "colors" = c2.get "colors")
    (hnav : c1.get "navigation" = c2.get "navigation")
    (hlogo : c1.get "logo" = c2.get "logo") (hfav : c1.get "favicon" = c2.get "favicon")
    (hints : c1.get "integrations" = c2.get "integrations")
    (hschema : c1.get "$schema" = c2.get "$schema")
    (hdesc : c1.get "description" = c2.get "description") :
    validateDocsJson c1 = validateDocsJson c2 := by
  unfold validateDocsJson
  rw [validateRequiredFields_congr c1 c2 htheme hname, validateColors_congr c1 c2 hcolors,
    validateNavigation_congr c1 c2 hnav, validateAssets_congr c1 c2 hlogo hfav,
    validateIntegrations_congr c1 c2 hints,
    validateBestPractices_congr c1 c2 hschema hdesc hfav hlogo]

theorem get_cons_ne (fields : List (String × Json)) (k : String) (v : Json) (key : String)
    (hk : key ≠ k) :
    Json.get (Json.obj ((k, v) :: fields)) key = Json.get (Json.obj fields) key := by
  simp [Json.get, Json.getD, lookupField, Ne.symm hk]

/-- Claim C8: adding one more field the validator does not inspect to a
passing document leaves the result unchanged — in particular the errors
list stays empty. -/
theorem c8_unrelated_field (fields : List (String × Json)) (k : String) (v : Json)
    (r : ValidationResult) (hok : validateDocsJson (Json.obj fields) = .ok r)
    (hpass : r.errors = []) (hk : k ∉ inspectedKeys) :
    validateDocsJson (Json.obj ((k, v) :: fields)) = .ok r ∧ r.errors = [] := by
  have hd : ∀ key, key ∈ inspectedKeys →
      Json.get (Json.obj ((k, v) :: fields)) key = Json.get (Json.obj fields) key :=
    fun key hkey => get_cons_ne fields k v key (fun h => hk (h ▸ hkey))
  refine ⟨?_, hpass⟩
  rw [validateDocsJson_congr (Json.obj ((k, v) :: fields)) (Json.obj fields)
    (hd "theme" (by decide)) (hd "name" (by decide)) (hd "colors" (by decide))
    (hd "navigation" (by decide)) (hd "logo" (by decide)) (hd "favicon" (by decide))
    (hd "integrations" (by decide)) (hd "$schema" (by decide)) (hd "description" (by decide))]
  exact hok

/-- Witness for C8: a minimal passing document with one extra unrelated
field still validates with no errors. -/
theorem c8_unrelated_field_witness :
    validateDocsJson (Json.obj (("customField", Json.num 1) ::
      [("theme", Json.str "mint"), ("name", Json.str "X"),
        ("colors", Json.obj [("primary", Json.str "#0066cc")]),
        ("navigation", Json.obj [])])) =
      .ok { errors := [], warnings := [schemaNudgeMsg, descriptionNudgeMsg, faviconNudgeMsg,
        logoNudgeMsg], isValid := true } :=
  (c8_unrelated_field
    [("theme", Json.str "mint"), ("name", Json.str "X"),
      ("colors", Json.obj [("primary", Json.str "#0066cc")]),
      ("navigation", Json.obj [])]
    "customField" (Json.num 1)
    { errors := [], warnings := [schemaNudgeMsg, descriptionNudgeMsg, faviconNudgeMsg,
      logoNudgeMsg], isValid := true }
    (by decide) rfl (by decide)).1

theorem safe_get_eq {m : Json} (hm : elemSafe m = true) (key : String) :
    m.get key = .ok (m.getD key) := by
  cases m <;> first | rfl | simp [elemSafe] at hm

theorem checkMenuAux_spec (tabName : Json) (menu : List Json)
    (hsafe : ∀ m ∈ menu, elemSafe m = true) :
    ∀ start, ∃ es, checkMenuAux tabName menu start = .ok es ∧
      ∀ i mfs, menu.get? i = some (Json.obj mfs) → lookupField mfs "item" = none →
        menuItemMissingMsg (start + i) tabName ∈ es := by
  induction menu with
  | nil =>
    intro start
    refine ⟨[], rfl, ?_⟩
    intro i mfs h
    simp at h
  | cons m rest ih =>
    intro start
    have hm : elemSafe m = true := hsafe m (by simp)
    obtain ⟨es, hes, hmem⟩ := ih (fun x hx => hsafe x (by simp [hx])) (start + 1)
    refine ⟨(if !(m.getD "item").truthy then [menuItemMissingMsg start tabName] else []) ++ es,
      ?_, ?_⟩
    · rw [checkMenuAux, safe_get_eq hm]
      simp only [except_ok_bind]
      rw [hes]
      simp only [except_ok_bind]
    · intro i mfs hi hlook
      cases i with
      | zero =>
        rw [List.get?_cons_zero] at hi
        have hm2 : m = Json.obj mfs := by injection hi
        subst hm2
        have htr : (Json.getD (Json.obj mfs) "item").truthy = false := by
          simp [Json.getD, hlook, Json.truthy]
        rw [Nat.add_zero]
        simp [htr]
      | succ i' =>
        rw [List.get?_cons_succ] at hi
        have := hmem i' mfs hi hlook
        rw [show start + (i' + 1) = start + 1 + i' by omega]
        simp [this]

theorem checkTabsAux_spec (tabs : List Json)
    (hsafe : ∀ t ∈ tabs, elemSafe t = true ∧ menuOk (Json.getD t "menu") = true) :
    ∀ start, ∃ es, checkTabsAux tabs start = .ok es ∧
      ∀ ti tfs menu mi mfs, tabs.get? ti = some (Json.obj tfs) →
        lookupField tfs "menu" = some (Json.arr menu) →
        menu.get? mi = some (Json.obj mfs) → lookupField mfs "item" = none →
        menuItemMissingMsg mi (Json.getD (Json.obj tfs) "tab") ∈ es := by
  induction tabs with
  | nil =>
    intro start
    refine ⟨[], rfl, ?_⟩
    intro ti tfs menu mi mfs h
    simp at h
  | cons t rest ih =>
    intro start
    obtain ⟨hts, hmk⟩ := hsafe t (by simp)
    obtain ⟨esRest, hesR, hmemR⟩ := ih (fun x hx => hsafe x (by simp [hx])) (start + 1)
    by_cases hmenu : (Json.getD t "menu").truthy = true
    · cases hArr : Json.getD t "menu" with
      | arr ms =>
        have hall : ∀ x ∈ ms, elemSafe x = true := by
          rw [hArr] at hmk
          simpa [menuOk, List.all_eq_true] using hmk
        obtain ⟨esM, hesM, hmemM⟩ := checkMenuAux_spec (t.getD "tab") ms hall 0
        refine ⟨(if !(t.getD "tab").truthy then [tabMissingTabMsg start] else []) ++ esM ++
          esRest, ?_, ?_⟩
        · rw [checkTabsAux, safe_get_eq hts]
          simp only [except_ok_bind]
          rw [safe_get_eq hts]
          simp only [except_ok_bind]
          rw [hArr]
          simp only [Json.truthy, if_true, jsArrayElems, except_ok_bind]
          rw [hesM]
          simp only [except_ok_bind]
          rw [hesR]
          simp only [except_ok_bind]
        · intro ti tfs menu mi mfs hti hmenuLook hmi hlook
          cases ti with
          | zero =>
            rw [List.get?_cons_zero] at hti
            have ht2 : t = Json.obj tfs := by injection hti
            subst ht2
            have hmenus : Json.arr menu = Json.arr ms := by
              rw [← hArr]
              simp [Json.getD, hmenuLook]
            have hmenus2 : menu = ms := by injection hmenus
            subst hmenus2
            have := hmemM mi mfs hmi hlook
            rw [Nat.zero_add] at this
            simp [this]
          | succ ti' =>
            rw [List.get?_cons_succ] at hti
            have := hmemR ti' tfs menu mi mfs hti hmenuLook hmi hlook
            simp [this]
      | undefined => rw [hArr] at hmenu; simp [Json.truthy] at hmenu
      | null => rw [hArr] at hmenu; simp [Json.truthy] at hmenu
      | bool b =>
        rw [hArr] at hmk
        simp only [menuOk, Bool.not_eq_true'] at hmk
        rw [hArr, hmk] at hmenu
        simp [Json.truthy] at hmenu
      | num n =>
        rw [hArr] at hmk
        simp only [menuOk, Bool.not_eq_true'] at hmk
        rw [hArr, hmk] at hmenu
        simp [Json.truthy] at hmenu
      | str sv =>
        rw [hArr] at hmk
        simp only [menuOk, Bool.not_eq_true'] at hmk
        rw [hArr, hmk] at hmenu
        simp [Json.truthy] at hmenu
      | obj ofs =>
        rw [hArr] at hmk
        simp [menuOk, Json.truthy] at hmk
    · refine ⟨(if !(t.getD "tab").truthy then [tabMissingTabMsg start] else []) ++ [] ++
        esRest, ?_, ?_⟩
      · rw [checkTabsAux, safe_get_eq hts]
        simp only [except_ok_bind]
        rw [safe_get_eq hts]
        simp only [except_ok_bind]
        rw [if_neg hmenu]
        simp only [except_pure_bind]
        rw [hesR]
        simp only [except_ok_bind]
      · intro ti tfs menu mi mfs hti hmenuLook hmi hlook
        cases ti with
        | zero =>
          rw [List.get?_cons_zero] at hti
          have ht2 : t = Json.obj tfs := by injection hti
          subst ht2
          exfalso
          apply hmenu
          simp [Json.getD, hmenuLook, Json.truthy]
        | succ ti' =>
          rw [List.get?_cons_succ] at hti
          have := hmemR ti' tfs menu mi mfs hti hmenuLook hmi hlook
          simp [this]

/-- Claim C9: for every `navigation.tabs` entry whose `menu` is an array,
each menu entry lacking an `item` key makes the validator append an
error naming that menu entry's index and the containing tab's name. -/
theorem c9_menu_item_errors (tabs : List Json)
    (hsafe : ∀ t ∈ tabs, elemSafe t = true ∧ menuOk (Json.getD t "menu") = true) :
    ∃ es, checkTabsMain tabs = .ok es ∧
      ∀ ti tfs menu mi mfs, tabs.get? ti = some (Json.obj tfs) →
        lookupField tfs "menu" = some (Json.arr menu) →
        menu.get? mi = some (Json.obj mfs) → lookupField mfs "item" = none →
        menuItemMissingMsg mi (Json.getD (Json.obj tfs) "tab") ∈ es :=
  checkTabsAux_spec tabs hsafe 0

/-- Witness for C9: a tab whose menu holds one empty object yields the
indexed menu-item error. -/
theorem c9_menu_item_witness :
    ∃ es, checkTabsMain [Json.obj [("tab", Json.str "T"),
        ("menu", Json.arr [Json.obj []])]] = .ok es ∧
      menuItemMissingMsg 0 (Json.getD
        (Json.obj [("tab", Json.str "T"), ("menu", Json.arr [Json.obj []])]) "tab") ∈ es := by
  obtain ⟨es, h1, h2⟩ := c9_menu_item_errors
    [Json.obj [("tab", Json.str "T"), ("menu", Json.arr [Json.obj []])]] (by decide)
  exact ⟨es, h1, h2 0 [("tab", Json.str "T"), ("menu", Json.arr [Json.obj []])]
    [Json.obj []] 0 [] rfl rfl rfl rfl⟩

/-- Witness for C10: a document with `theme` bound to the empty string
and `name` bound to `0` gets both missing-field errors. -/
theorem c10_truthy_required_witness :
    ∃ es, validateRequiredFields (Json.obj [("theme", Json.str ""), ("name", Json.num 0)]) =
        .ok es ∧ themeRequiredMsg ∈ es ∧ nameRequiredMsg ∈ es := by
  obtain ⟨es, h1, h2, h3⟩ := c10_truthy_required [("theme", Json.str ""), ("name", Json.num 0)]
  exact ⟨es, h1, (h2 (Json.str "") rfl (by decide)).1, h3 (Json.num 0) rfl (by decide)⟩
